import Mathlib

/-!
Shallow embedding of the core orchestration and safety logic of the
retina-py repository (multi-tenant RAG engine), together with theorems
that settle the frozen claims C1..C10 about its specification.

Covered source files:
  - src/app/pipelines/haystack_components/sql.py  (SQLSafetyValidator, SQLGenerator, SQLQuery)
  - src/app/storage/document_store_manager.py     (DocumentStoreManager)
  - src/app/pipelines/indexing.py                 (IndexingPipelinesFactory)
  - src/app/pipelines/query.py                    (QueryPipeline)
  - src/app/api/services/query.py                 (QueryService)

Strings are modelled as lists of characters; Python string primitives
(upper, strip, whitespace collapse, re.sub masking, re.search) are
embedded over that representation, restricted to ASCII character
classes (the character classes the validator's regexes rely on).
Opaque external backends (Ollama generation, Qdrant, SQLite, MinIO)
are parameters of the embedded functions.
-/

namespace Retina

/-- Queries and other Python strings are modelled as lists of characters. -/
abbrev Str := List Char

/-- Python whitespace class used by str.strip, str.split and the regex
class backslash-s, restricted to ASCII. -/
def isSpaceChar (c : Char) : Bool :=
  c = ' ' || c = '\t' || c = '\n' || c = '\r' || c = '\x0b' || c = '\x0c'

/-- Python word-character class (regex backslash-w), restricted to ASCII:
letters, digits and underscore. -/
def isWordChar (c : Char) : Bool :=
  c.isAlphanum || c = '_'

/-- Python str.upper, restricted to ASCII case mapping. -/
def upperStr (s : Str) : Str := s.map Char.toUpper

/-- Python str.strip: drop leading and trailing whitespace. -/
def stripStr (s : Str) : Str :=
  ((s.dropWhile isSpaceChar).reverse.dropWhile isSpaceChar).reverse

/-- Scanner for the embedding of re.sub with pattern backslash-s-plus
and replacement a single space: the flag records whether the previous
character was whitespace, so each maximal whitespace run emits exactly
one space. -/
def collapseWsAux (prevSpace : Bool) : Str → Str
  | [] => []
  | c :: rest =>
    if isSpaceChar c then
      if prevSpace then collapseWsAux true rest
      else ' ' :: collapseWsAux true rest
    else c :: collapseWsAux false rest

/-- Embedding of re.sub with pattern backslash-s-plus and replacement a
single space: every maximal whitespace run becomes one space. -/
def collapseWs (s : Str) : Str := collapseWsAux false s

/-- The query normalization performed at the top of
SQLSafetyValidator._rule_based_safety_check: upper, strip, collapse
whitespace runs. -/
def normalizeQuery (q : Str) : Str := collapseWs (stripStr (upperStr q))

/-- First element of Python str.split() on a string, or the empty string
when there is no token (mirrors: split()[0] if split() else ""). -/
def firstWord (s : Str) : Str :=
  (s.dropWhile isSpaceChar).takeWhile (fun c => !isSpaceChar c)

/-- Split a list at the first occurrence of a character: returns the part
before it and the part after it, or none when the character is absent. -/
def breakAtChar (qc : Char) : Str → Option (Str × Str)
  | [] => none
  | c :: rest =>
    if c = qc then some ([], rest)
    else
      match breakAtChar qc rest with
      | some (a, b) => some (c :: a, b)
      | none => none

/-- Fuel-indexed scanner for quoted-span masking; the fuel only serves
structural recursion and never runs out when it starts at the input
length, since every step consumes at least one input character. -/
def maskQuotedFuel (qc : Char) : Nat → Str → Str
  | _, [] => []
  | 0, s => s
  | fuel + 1, c :: rest =>
    if c = qc then
      match breakAtChar qc rest with
      | some (_, after) =>
        ' ' :: qc :: 'S' :: 'T' :: 'R' :: 'I' :: 'N' :: 'G' :: qc :: ' ' ::
          maskQuotedFuel qc fuel after
      | none => c :: rest
    else c :: maskQuotedFuel qc fuel rest

/-- Embedding of re.sub with pattern `qc [^qc]* qc` and replacement
`space qc STRING qc space`: each quoted span (delimited by the quote
character qc, with no qc inside) is replaced by the fixed masked literal,
scanning left to right over non-overlapping matches; an unmatched opening
quote is left as is. This is the string-literal masking used by
SQLSafetyValidator._has_dangerous_keywords_in_context and
_check_sql_injection_patterns. -/
def maskQuoted (qc : Char) (s : Str) : Str := maskQuotedFuel qc s.length s

/-- Mask single-quoted string literals first, then double-quoted ones,
in the order the source applies the two re.sub calls. -/
def maskStrings (s : Str) : Str := maskQuoted '"' (maskQuoted '\'' s)

/-! Regex-existence engine.  The validator only ever uses re.search for
its truthiness, so only the existence of a match matters; greedy versus
lazy repetition is irrelevant to existence and repetition appears in the
source patterns only over single-character classes. -/

/-- Character classes occurring in the validator regexes. -/
inductive CharClass where
  | any
  | ws
  | notChar (c : Char)
deriving DecidableEq

def CharClass.matchesC : CharClass → Char → Bool
  | .any, _ => true
  | .ws, c => isSpaceChar c
  | .notChar q, c => !(c = q)

/-- Regex abstract syntax sufficient for the validator patterns.
Repetition is restricted to character classes, as in the source
patterns.  Single characters match case-insensitively, embedding
re.IGNORECASE which every re.search call in the validator passes. -/
inductive Rx where
  | eps
  | ch (c : Char)
  | cls (p : CharClass)
  | seq (a b : Rx)
  | alt (a b : Rx)
  | starCls (p : CharClass)
  | plusCls (p : CharClass)
  | opt (a : Rx)
deriving DecidableEq

/-- All remainders reachable by letting a class repetition consume a
prefix of the input (zero or more matching characters). -/
def starRemainders (p : CharClass) : Str → List Str
  | [] => [[]]
  | c :: rest =>
    (c :: rest) :: (if p.matchesC c then starRemainders p rest else [])

/-- All remainders of the input after matching a prefix against the
regex, anchored at the start of the input. -/
def rxMatch : Rx → Str → List Str
  | .eps, s => [s]
  | .ch _, [] => []
  | .ch c, d :: rest => if d.toUpper = c.toUpper then [rest] else []
  | .cls _, [] => []
  | .cls p, d :: rest => if p.matchesC d then [rest] else []
  | .seq a b, s => ((rxMatch a s).map (rxMatch b)).flatten
  | .alt a b, s => rxMatch a s ++ rxMatch b s
  | .starCls p, s => starRemainders p s
  | .plusCls _, [] => []
  | .plusCls p, d :: rest => if p.matchesC d then starRemainders p rest else []
  | .opt a, s => s :: rxMatch a s

/-- Embedding of the truthiness of re.search: does the regex match
starting at some position of the input. -/
def rxSearch (r : Rx) : Str → Bool
  | [] => !(rxMatch r []).isEmpty
  | c :: rest => !(rxMatch r (c :: rest)).isEmpty || rxSearch r rest

/-- Regex matching a literal string, character by character. -/
def rxStr (s : String) : Rx :=
  s.data.foldr (fun c r => .seq (.ch c) r) .eps

/-- Alternation over a list of regexes. -/
def rxAlts : List Rx → Rx
  | [] => .eps
  | [r] => r
  | r :: rs => .alt r (rxAlts rs)

/-- Concatenation of a list of regexes. -/
def rxCat (l : List Rx) : Rx :=
  l.foldr .seq .eps

/-! SQLSafetyValidator (src/app/pipelines/haystack_components/sql.py). -/

/-- The allow-list self.allowed_operations of read-only first tokens. -/
def allowedOperations : List Str :=
  ["SELECT", "WITH", "SHOW", "DESCRIBE", "DESC", "EXPLAIN", "PRAGMA"].map String.data

/-- The deny-list self.dangerous_keywords. -/
def dangerousKeywords : List Str :=
  ["DROP", "DELETE", "UPDATE", "INSERT", "TRUNCATE", "ALTER",
   "CREATE", "REPLACE", "MERGE", "UPSERT", "ATTACH", "DETACH",
   "VACUUM", "REINDEX", "ANALYZE"].map String.data

/-- The mutating-verb group appearing inside the dangerous patterns. -/
def mutatingVerbGroup : Rx :=
  rxAlts (["DROP", "DELETE", "UPDATE", "INSERT", "TRUNCATE", "ALTER", "CREATE"].map rxStr)

/-- self.dangerous_patterns, in source order: statement-separator
injection, comment-hidden mutating verbs (line and block comments),
stored-procedure invocation markers, extended and system procedure
name fragments. -/
def dangerousPatterns : List Rx :=
  [ rxCat [.ch ';', .starCls .ws, mutatingVerbGroup],
    rxCat [rxStr "--", .starCls .any, mutatingVerbGroup],
    rxCat [rxStr "/*", .starCls .any, mutatingVerbGroup, .starCls .any, rxStr "*/"],
    rxCat [rxStr "EXEC", .starCls .ws, .ch '('],
    rxCat [rxStr "EXECUTE", .starCls .ws, .ch '('],
    rxStr "xp_",
    rxStr "sp_" ]

/-- The injection_patterns list of _check_sql_injection_patterns, in
source order. -/
def injectionPatterns : List Rx :=
  [ rxCat [.ch '\'', .starCls .ws, rxStr "OR", .starCls .ws, .ch '\''],
    rxCat [.ch '\'', .starCls .ws, rxStr "AND", .starCls .ws, .ch '\''],
    rxCat [.ch '\'', .starCls .ws, .ch ';', .starCls .ws],
    rxCat [.ch '\'', .starCls .ws, rxStr "OR", .plusCls .ws,
           .ch '1', .starCls .ws, .ch '=', .starCls .ws, .ch '1'],
    rxCat [.ch '\'', .starCls .ws, rxStr "OR", .plusCls .ws, rxStr "TRUE"],
    rxCat [.ch '\'', .starCls .ws, rxStr "OR", .plusCls .ws,
           .ch '\'', .starCls (.notChar '\''), .ch '\'', .starCls .ws,
           .ch '=', .starCls .ws, .ch '\'', .starCls (.notChar '\''), .ch '\''],
    rxCat [.ch '0', .starCls .ws, .ch '=', .starCls .ws, .ch '0'],
    rxCat [rxStr "NULL", .starCls .ws, rxStr "IS", .starCls .ws, rxStr "NULL"],
    rxCat [.ch ';', .starCls .ws, rxStr "UNION", .plusCls .ws,
           .opt (rxCat [rxStr "ALL", .plusCls .ws]), rxStr "SELECT"],
    rxCat [.ch '\'', .starCls .ws, rxStr "UNION", .plusCls .ws,
           .opt (rxCat [rxStr "ALL", .plusCls .ws]), rxStr "SELECT"] ]

/-- Case-insensitive test that the keyword is a prefix of the text,
restricted to ASCII case mapping (matches re.IGNORECASE on the
uppercase keyword literals). -/
def startsWithCI : Str → Str → Bool
  | [], _ => true
  | _ :: _, [] => false
  | p :: ps, c :: cs => (p.toUpper = c.toUpper) && startsWithCI ps cs

/-- Match of a word-bounded keyword anchored at the head of the text:
the keyword is a prefix and the character following it, if any, is not
a word character (the closing word boundary). -/
def keywordAtHead (kw s : Str) : Bool :=
  startsWithCI kw s &&
    (match s.drop kw.length with
     | [] => true
     | c :: _ => !isWordChar c)

/-- Scan of the text for a word-bounded occurrence of the keyword,
tracking whether the previous character was a word character (the
opening word boundary). -/
def keywordSearchAux (kw : Str) (prevIsWord : Bool) : Str → Bool
  | [] => (!prevIsWord) && keywordAtHead kw []
  | c :: rest =>
    ((!prevIsWord) && keywordAtHead kw (c :: rest)) || keywordSearchAux kw (isWordChar c) rest

/-- Embedding of re.search over the pattern backslash-b keyword
backslash-b: some occurrence of the keyword delimited by word
boundaries. -/
def hasKeywordWithBoundaries (kw s : Str) : Bool :=
  keywordSearchAux kw false s

/-- SQLSafetyValidator._has_dangerous_keywords_in_context: mask string
literals, then look for any deny-listed keyword with word boundaries. -/
def hasDangerousKeywordsInContext (q : Str) : Bool :=
  let masked := maskStrings q
  dangerousKeywords.any (fun kw => hasKeywordWithBoundaries kw masked)

/-- SQLSafetyValidator._check_sql_injection_patterns: mask string
literals, then search the injection patterns. -/
def checkSqlInjectionPatterns (q : Str) : Bool :=
  let masked := maskStrings q
  injectionPatterns.any (fun r => rxSearch r masked)

/-- SQLSafetyValidator._rule_based_safety_check.  Branch order follows
the source: allow-list check on the first token, deny-listed keywords
outside string literals, dangerous patterns, injection patterns. -/
def ruleBasedSafetyCheck (q : Str) : Bool × String :=
  let nq := normalizeQuery q
  let fw := firstWord nq
  if !(allowedOperations.contains fw) then
    (false, "Query must start with allowed operations. Found: " ++ String.mk fw)
  else if hasDangerousKeywordsInContext nq then
    (false, "Dangerous keyword detected in executable context")
  else if dangerousPatterns.any (fun r => rxSearch r nq) then
    (false, "Dangerous pattern detected")
  else if checkSqlInjectionPatterns nq then
    (false, "Potential SQL injection pattern detected")
  else
    (true, "Query passed rule-based safety checks")

/-- One invocation of the semantic backend: either the reply text or an
exception.  The classification prompt text is opaque to the verdict
parsing, so the backend outcome is the parameter. -/
abbrev LlmOutcome := Except String String

/-- SQLSafetyValidator._llm_based_safety_check: parse the stripped
reply; a reply starting with the SAFE marker passes, one starting with
the UNSAFE marker fails, anything else is treated as unsafe; an
exception falls back to the rule-based check. -/
def llmBasedSafetyCheck (outcome : LlmOutcome) (q : Str) : Bool × String :=
  match outcome with
  | .error _ => ruleBasedSafetyCheck q
  | .ok reply =>
    let r := stripStr reply.data
    if "SAFE:".data.isPrefixOf r then
      (true, "LLM validation passed: " ++ String.mk (stripStr (r.drop 5)))
    else if "UNSAFE:".data.isPrefixOf r then
      (false, "LLM validation failed: " ++ String.mk (stripStr (r.drop 7)))
    else
      (false, "LLM validation inconclusive: " ++ String.mk r)

/-- SQLSafetyValidator.is_safe_query.  The llm parameter is none when no
generation backend is configured (self.use_llm false), otherwise the
outcome of the one semantic call made on this query. -/
def isSafeQuery (llm : Option LlmOutcome) (q : Str) : Bool × String :=
  if (stripStr q).isEmpty then
    (false, "Empty query provided")
  else
    let rb := ruleBasedSafetyCheck q
    if !rb.1 then rb
    else
      match llm with
      | some outcome => llmBasedSafetyCheck outcome q
      | none => rb

/-! SQLGenerator and SQLQuery components
(src/app/pipelines/haystack_components/sql.py).  The Ollama generation
backend and the SQLite backend are opaque collaborators, modelled as
parameters; Haystack Documents carry only content here, which is all
these components set. -/

/-- A Haystack Document as produced by the query-side components. -/
structure Doc where
  content : String
deriving DecidableEq

/-- Result table of the structured backend: column names and rows. -/
structure SqlTable where
  cols : List String
  rows : List (List String)
deriving DecidableEq

/-- The sqlite3 execution collaborator: the result table, or the message
of a raised sqlite3.Error. -/
abbrev Db := Str → Except String SqlTable

/-- The row cap max_rows applied in SQLQuery.run. -/
def maxRows : Nat := 1000

/-- SQLGenerator.run, from the safety gate onward: the natural-language
generation call and code-fence extraction yield the candidate sql (the
opaque generation backend produces it); the candidate is validated and
an unsafe verdict raises ValueError before the sql is emitted. -/
def sqlGeneratorRun (llm : Option LlmOutcome) (sql : Str) : Except String Str :=
  let v := isSafeQuery llm sql
  if !v.1 then
    .error ("Generated SQL query failed safety validation: " ++ v.2 ++ ". Query: " ++ String.mk sql)
  else
    .ok sql

/-- SQLQuery.run: validate, then execute against the database and wrap
the (row-capped) result as a single Document; an unsafe verdict raises
ValueError before any database call. -/
def sqlQueryRun (llm : Option LlmOutcome) (db : Db) (q : Str) : Except String (List Doc) :=
  let v := isSafeQuery llm q
  if !v.1 then
    .error ("SQL query failed safety validation: " ++ v.2 ++ ". Query: " ++ String.mk q)
  else
    match db q with
    | .error e =>
      .error ("Database error executing query: " ++ e ++ ". Query: " ++ String.mk q)
    | .ok t =>
      let rows := if t.rows.length > maxRows then t.rows.take maxRows else t.rows
      let content :=
        if t.rows.length > maxRows then
          "SQL Results (showing first " ++ toString maxRows ++ " of " ++
            toString rows.length ++ " rows):" ++ "\nColumns: " ++ toString t.cols ++
            "\nRows: " ++ toString rows
        else
          "SQL Results:" ++ "\nColumns: " ++ toString t.cols ++ "\nRows: " ++ toString rows
      .ok [⟨content⟩]

/-! Document conversion (src/app/pipelines/indexing.py:
IndexingPipelinesFactory.detect_file_type and convert_document).  The
native Haystack converters are the opaque extraction collaborator. -/

/-- The DocumentType enum. -/
inductive DocumentType where
  | pdf
  | txt
deriving DecidableEq

/-- The string value of each enum member. -/
def DocumentType.val : DocumentType → String
  | .pdf => "pdf"
  | .txt => "txt"

/-- Python object_path.split with slash, last element. -/
def lastComponent (s : Str) : Str :=
  (s.reverse.takeWhile (fun c => !(c = '/'))).reverse

/-- pathlib.Path(p).suffix: the extension of the final path component
including its dot; empty when the last dot is absent, leading, or
trailing. -/
def pathSuffix (p : String) : Str :=
  let name := lastComponent p.data
  match breakAtChar '.' name.reverse with
  | some (revExt, revStem) =>
    if revStem.isEmpty then []
    else if revExt.isEmpty then []
    else '.' :: revExt.reverse
  | none => []

/-- self.file_type_map, keyed by lower-cased extension. -/
def fileTypeMap : List (Str × DocumentType) :=
  [(".pdf".data, .pdf), (".txt".data, .txt)]

/-- IndexingPipelinesFactory.detect_file_type: extension of the local
file path, else extension of the object path, else default to TXT. -/
def detectFileType (filePath objectPath : String) : DocumentType :=
  match fileTypeMap.lookup ((pathSuffix filePath).map Char.toLower) with
  | some t => t
  | none =>
    match fileTypeMap.lookup ((pathSuffix objectPath).map Char.toLower) with
    | some t => t
    | none => .txt

/-- A metadata value: the strings and byte sizes the converter stores. -/
inductive MVal where
  | s (v : String)
  | n (v : Nat)
deriving DecidableEq

/-- Python dict with insertion order, as an association list. -/
abbrev Meta := List (String × MVal)

def metaGet (m : Meta) (k : String) : Option MVal :=
  m.lookup k

/-- Python dict item assignment: replace in place, or append when new. -/
def metaSet (m : Meta) (k : String) (v : MVal) : Meta :=
  if (m.lookup k).isSome then
    m.map (fun kv => if kv.1 = k then (k, v) else kv)
  else
    m ++ [(k, v)]

/-- Python dict.update: assign every pair of the update dict in order. -/
def metaUpdate (m upd : Meta) : Meta :=
  upd.foldl (fun acc kv => metaSet acc kv.1 kv.2) m

/-- Python truthiness of a metadata value as used by
`if not doc.meta.get("doc_id")`. -/
def mvalTruthy : Option MVal → Bool
  | none => false
  | some (.s v) => !v.isEmpty
  | some (.n v) => !(v = 0)

/-- A converted document: content plus its metadata dict. -/
structure PyDoc where
  content : String
  meta : Meta
deriving DecidableEq

/-- The base metadata stamped on every converted document, in source
order: doc_id, object_path, doc_type, source_file, file_size. -/
def baseMeta (docId objectPath : String) (t : DocumentType) (fileSize : Nat) : Meta :=
  [("doc_id", .s docId),
   ("object_path", .s objectPath),
   ("doc_type", .s t.val),
   ("source_file", .s (String.mk (lastComponent objectPath.data))),
   ("file_size", .n fileSize)]

/-- IndexingPipelinesFactory.convert_document.  The extract parameter is
the type-specific native converter call (PyPDFToDocument or
TextFileToDocument), which either yields documents or raises; fileSize
is os.path.getsize of the local file, computed before the try block. -/
def convertDocument (extract : DocumentType → Except String (List PyDoc))
    (filePath docId objectPath : String) (fileSize : Nat) : List PyDoc :=
  let t := detectFileType filePath objectPath
  let base := baseMeta docId objectPath t fileSize
  match extract t with
  | .ok docs =>
    docs.map (fun d =>
      let m := metaUpdate d.meta base
      let m := if mvalTruthy (metaGet m "doc_id") then m else metaSet m "doc_id" (.s docId)
      { d with meta := m })
  | .error e =>
    [{ content := "Error processing " ++ t.val ++ " file: " ++ e, meta := base }]

/-! Tenant resource registry (src/app/storage/document_store_manager.py
DocumentStoreManager, and src/app/pipelines/indexing.py
IndexingPipelinesFactory.get_processing_pipeline).  Python object
identity is modelled with an allocation counter: every constructed
QdrantDocumentStore or Pipeline receives a fresh reference number, so
reference equality is equality of reference numbers. -/

/-- A QdrantDocumentStore handle: its reference identity and the
collection (index) name it was constructed with. -/
structure Store where
  ref : Nat
  collectionName : String
deriving DecidableEq

/-- A wired processing Pipeline: its reference identity and the
reference of the document store its writer is bound to. -/
structure PipelineInst where
  ref : Nat
  storeRef : Nat
deriving DecidableEq

/-- Process-wide state: the allocation counter, the
DocumentStoreManager class attributes (_instance, _initialized and the
singleton's _document_stores dict), and the indexing factory's
_processing_pipelines dict. -/
structure World where
  nextRef : Nat
  dsmInstance : Option Nat
  dsmInitialized : Bool
  documentStores : List (String × Store)
  processingPipelines : List (String × PipelineInst)
deriving DecidableEq

/-- The process state before any registry access. -/
def World.init : World :=
  { nextRef := 0, dsmInstance := none, dsmInitialized := false,
    documentStores := [], processingPipelines := [] }

/-- DocumentStoreManager(): __new__ returns the cached class instance or
allocates it, then __init__ resets the store dict only on the first
initialization. -/
def dsmConstruct (w : World) : Nat × World :=
  let (r, w₁) :=
    match w.dsmInstance with
    | some r => (r, w)
    | none => (w.nextRef, { w with nextRef := w.nextRef + 1, dsmInstance := some w.nextRef })
  if w₁.dsmInitialized then (r, w₁)
  else (r, { w₁ with documentStores := [], dsmInitialized := true })

/-- DocumentStoreManager._create_document_store: construct a fresh
QdrantDocumentStore whose index is the organization prefix, a dash and
the organization id.  (The auto_create_collection existence check only
touches the external Qdrant service and raises on a missing collection;
the constructed value is as below whenever it returns.) -/
def createDocumentStore (pfx org : String) (w : World) : Store × World :=
  (⟨w.nextRef, pfx ++ "-" ++ org⟩, { w with nextRef := w.nextRef + 1 })

/-- DocumentStoreManager.get_document_store: return the cached store for
the organization, or create and cache one. -/
def getDocumentStore (pfx org : String) (w : World) : Store × World :=
  match w.documentStores.lookup org with
  | some s => (s, w)
  | none =>
    let (s, w₁) := createDocumentStore pfx org w
    (s, { w₁ with documentStores := (org, s) :: w₁.documentStores })

/-- IndexingPipelinesFactory.get_document_store: construct (or fetch)
the shared DocumentStoreManager and delegate. -/
def factoryGetDocumentStore (pfx org : String) (w : World) : Store × World :=
  let (_, w₁) := dsmConstruct w
  getDocumentStore pfx org w₁

/-- QueryPipeline._setup_organization_retriever obtains the document
store for its organization the same way: through the shared manager. -/
def queryGetDocumentStore (pfx org : String) (w : World) : Store × World :=
  let (_, w₁) := dsmConstruct w
  getDocumentStore pfx org w₁

/-- IndexingPipelinesFactory.get_processing_pipeline: return the cached
pipeline for the organization, or wire a fresh one to the
organization's document store and cache it. -/
def getProcessingPipeline (pfx org : String) (w : World) : PipelineInst × World :=
  match w.processingPipelines.lookup org with
  | some p => (p, w)
  | none =>
    let (s, w₁) := factoryGetDocumentStore pfx org w
    let p : PipelineInst := ⟨w₁.nextRef, s.ref⟩
    (p, { w₁ with nextRef := w₁.nextRef + 1,
                  processingPipelines := (org, p) :: w₁.processingPipelines })

/-- The registry get-or-create of the specification: the Collection
handle and the PipelineInstance wired to it, as obtained by the
indexing path for one tenant. -/
def getOrCreate (pfx org : String) (w : World) : (Store × PipelineInst) × World :=
  let (s, w₁) := factoryGetDocumentStore pfx org w
  let (p, w₂) := getProcessingPipeline pfx org w₁
  ((s, p), w₂)

/-- DocumentStoreManager.remove_document_store: drop the cache entry,
reporting whether one existed. -/
def removeDocumentStore (org : String) (w : World) : Bool × World :=
  if (w.documentStores.lookup org).isSome then
    (true, { w with documentStores := w.documentStores.filter (fun kv => !(kv.1 = org)) })
  else
    (false, w)

/-! Interleaving model of DocumentStoreManager.get_document_store for
claim C3.  The method body is a membership test on the dict followed,
when absent, by _create_document_store (which performs network calls)
and the dict insertion; no lock protects the sequence, so a thread can
be interleaved between its membership test and its insertion.  A thread
is therefore two atomic steps: the check, and the create-and-insert. -/

/-- Program counter of one thread running get_document_store. -/
inductive TPC where
  | atCheck
  | atCreate
  | finished (s : Store)
deriving DecidableEq

/-- Two threads calling get_document_store for the same organization,
over the shared store dict and allocation counter; constructedCount
counts executions of _create_document_store. -/
structure RaceState where
  nextRef : Nat
  documentStores : List (String × Store)
  threads : List TPC
  constructedCount : Nat
deriving DecidableEq

/-- One atomic step of the given thread. -/
def raceStep (pfx org : String) (st : RaceState) (tid : Nat) : RaceState :=
  match st.threads.get? tid with
  | none => st
  | some pc =>
    match pc with
    | .atCheck =>
      match st.documentStores.lookup org with
      | some s => { st with threads := st.threads.set tid (.finished s) }
      | none => { st with threads := st.threads.set tid .atCreate }
    | .atCreate =>
      let s : Store := ⟨st.nextRef, pfx ++ "-" ++ org⟩
      { st with nextRef := st.nextRef + 1,
                documentStores := (org, s) :: st.documentStores,
                threads := st.threads.set tid (.finished s),
                constructedCount := st.constructedCount + 1 }
    | .finished _ => st

/-- Run a schedule: a list of thread ids, each performing one step. -/
def raceRun (pfx org : String) (sched : List Nat) (st : RaceState) : RaceState :=
  sched.foldl (raceStep pfx org) st

/-- Both threads poised at their membership checks over an empty cache:
two concurrent first-accesses for one tenant. -/
def raceInit : RaceState :=
  { nextRef := 0, documentStores := [], threads := [.atCheck, .atCheck], constructedCount := 0 }

/-! Query pipeline (src/app/pipelines/query.py QueryPipeline.run_query)
and the service layer (src/app/api/services/query.py
QueryService.execute_query).  The pipeline components with external
effects — query embedding plus retrieval, natural-language SQL
generation with code-fence extraction, and the final generation call —
are opaque collaborators passed as functions.  The ConditionalRouter
library component emits an output for each route whose condition holds
and raises NoRouteSelectedException when none does. -/

/-- The message of the routing exception raised when no route fires. -/
def noRouteMessage : String := "No route fired in ConditionalRouter"

/-- The prompt assembled by the PromptBuilder template from the joined
context documents and the query text. -/
def buildPrompt (docs : List Doc) (query : String) : String :=
  "Based on the following information, please answer the question:" ++ "\n\nContext:\n" ++
    (docs.foldr (fun d acc => d.content ++ "\n" ++ acc) "") ++
    "\nQuestion: " ++ query ++ "\n\nAnswer:"

/-- QueryPipeline.run_query as a dataflow over the wired components.
The ConditionalRouter evaluates its routes in order and emits the
output of the first route whose condition holds (if/elif routing), so
the docstore route shadows the sql route when both tags are requested;
the routed branch runs, its evidence documents reach the joiner and the
prompt, and the final generator's single reply is returned.  The
retrieve parameter is present exactly when the pipeline was built with
an organization id (doc_retriever wired); without it the docstore
branch contributes no documents.  Branch errors (including the
ValueError raised by SQLGenerator or SQLQuery on an unsafe candidate)
propagate out of Pipeline.run. -/
def runQueryPipe (validatorLlm : Option LlmOutcome) (generateSql : String → Str)
    (db : Db) (retrieve : Option (String → List Doc)) (finalLlm : String → String)
    (query : String) (targets : List String) : Except String String :=
  if targets.contains "docstore" then
    let retrievedDocs :=
      match retrieve with
      | some f => f query
      | none => []
    .ok (finalLlm (buildPrompt retrievedDocs query))
  else if targets.contains "sql" then
    match sqlGeneratorRun validatorLlm (generateSql query) with
    | .error e => .error e
    | .ok sql =>
      match sqlQueryRun validatorLlm db sql with
      | .error e => .error e
      | .ok sqlDocs => .ok (finalLlm (buildPrompt sqlDocs query))
  else
    .error noRouteMessage

/-- The response model returned by the query service (sources is always
none in the source, marked TODO there). -/
structure QueryResponse where
  answer : String
  sources : Option (List String)
deriving DecidableEq

/-- QueryService.execute_query: run the pipeline; any exception is
caught and converted into a response whose answer carries the error
text. -/
def executeQuery (validatorLlm : Option LlmOutcome) (generateSql : String → Str)
    (db : Db) (retrieve : Option (String → List Doc)) (finalLlm : String → String)
    (query : String) (targets : List String) : QueryResponse :=
  match runQueryPipe validatorLlm generateSql db retrieve finalLlm query targets with
  | .ok ans => ⟨ans, none⟩
  | .error e => ⟨"Error executing query: " ++ e, none⟩

/-! Well-formedness of the registry world: every cached reference was
allocated (is below the counter) and no two cached resources share a
reference.  The initial world satisfies it and every registry operation
preserves it. -/

/-- All references cached in the world. -/
def World.refs (w : World) : List Nat :=
  w.documentStores.map (fun kv => kv.2.ref) ++ w.processingPipelines.map (fun kv => kv.2.ref)

/-- Reference discipline of the allocation model. -/
def World.WF (w : World) : Prop :=
  (∀ r ∈ w.refs, r < w.nextRef) ∧ w.refs.Nodup

/-- The concrete SQL query used to instantiate the blocked-execution
theorems: its first token is deny-listed, so the rule-based layer
rejects it. -/
def blockedQuery : Str := "DROP TABLE users".data

/-- The string-literal example query of the specification. -/
def literalExampleQuery : Str :=
  "SELECT name FROM users WHERE note = 'please DROP TABLE later'".data

/-! Theorems settling the claims. -/

/-- C1: an unsafe validation verdict blocks execution unconditionally,
and the same validator predicate gates both call sites: whenever
is_safe_query rejects a SQL string, SQLGenerator.run raises immediately
after generation, and SQLQuery.run raises for every database backend —
in particular the result is independent of the database, so execution
is never reached. -/
theorem unsafe_verdict_blocks_both_gates (llm : Option LlmOutcome) (q : Str)
    (h : (isSafeQuery llm q).1 = false) :
    sqlGeneratorRun llm q =
      .error ("Generated SQL query failed safety validation: " ++ (isSafeQuery llm q).2 ++
        ". Query: " ++ String.mk q) ∧
    ∀ db : Db, sqlQueryRun llm db q =
      .error ("SQL query failed safety validation: " ++ (isSafeQuery llm q).2 ++
        ". Query: " ++ String.mk q) := by
  constructor
  · simp [sqlGeneratorRun, h]
  · intro db
    simp [sqlQueryRun, h]

/-- Witness for C1 at the deny-listed query DROP TABLE users with no
semantic backend configured and a trivial database. -/
theorem unsafe_verdict_blocks_both_gates_witness :
    sqlGeneratorRun none blockedQuery =
      .error ("Generated SQL query failed safety validation: " ++ (isSafeQuery none blockedQuery).2 ++
        ". Query: " ++ String.mk blockedQuery) ∧
    sqlQueryRun none (fun _ => .ok ⟨[], []⟩) blockedQuery =
      .error ("SQL query failed safety validation: " ++ (isSafeQuery none blockedQuery).2 ++
        ". Query: " ++ String.mk blockedQuery) := by
  have h := unsafe_verdict_blocks_both_gates none blockedQuery (by decide)
  exact ⟨h.1, h.2 _⟩

/-- C4: every SQL string whose first token after uppercasing and
whitespace normalization lies outside the allow-list is rejected by the
rule-based layer, and is_safe_query rejects it for every semantic-layer
configuration. -/
theorem first_token_outside_allowlist_rejected (q : Str)
    (h : firstWord (normalizeQuery q) ∉ allowedOperations) :
    (ruleBasedSafetyCheck q).1 = false ∧
    ∀ llm : Option LlmOutcome, (isSafeQuery llm q).1 = false := by
  have hrb : (ruleBasedSafetyCheck q).1 = false := by
    simp [ruleBasedSafetyCheck, h]
  refine ⟨hrb, fun llm => ?_⟩
  by_cases he : (stripStr q).isEmpty
  · simp [isSafeQuery, he]
  · simp [isSafeQuery, he, hrb]

/-- Witness for C4 at the query DROP TABLE users, whose first token is
DROP. -/
theorem first_token_outside_allowlist_rejected_witness :
    (ruleBasedSafetyCheck blockedQuery).1 = false ∧
    (isSafeQuery none blockedQuery).1 = false :=
  ⟨(first_token_outside_allowlist_rejected blockedQuery (by decide)).1,
   (first_token_outside_allowlist_rejected blockedQuery (by decide)).2 none⟩

set_option maxRecDepth 40000 in
/-- C5: a deny-listed keyword occurring only inside string literals does
not trip the rule-based layer, because literals are masked before the
keyword check: in the specification's example the keyword DROP does
occur word-bounded in the normalized query, yet the masked keyword
check is clean and the validator verdict is safe. -/
theorem keyword_inside_literal_is_safe :
    hasKeywordWithBoundaries "DROP".data (normalizeQuery literalExampleQuery) = true ∧
    hasDangerousKeywordsInContext (normalizeQuery literalExampleQuery) = false ∧
    (ruleBasedSafetyCheck literalExampleQuery).1 = true ∧
    (isSafeQuery none literalExampleQuery).1 = true := by
  refine ⟨by decide, by decide, by decide, by decide⟩

/-- C6: with a generation backend configured and the rule-based layer
passing, the semantic verdict is fail-closed — every reply that does
not carry the SAFE or UNSAFE marker prefix after stripping yields an
unsafe verdict — and a semantic-layer exception makes is_safe_query
return exactly the rule-based (Layer-1) verdict. -/
theorem semantic_layer_fail_closed (q : Str) (reply err : String)
    (hne : (stripStr q).isEmpty = false)
    (hrb : (ruleBasedSafetyCheck q).1 = true)
    (hsafe : "SAFE:".data.isPrefixOf (stripStr reply.data) = false)
    (hbad : "UNSAFE:".data.isPrefixOf (stripStr reply.data) = false) :
    (isSafeQuery (some (.ok reply)) q).1 = false ∧
    isSafeQuery (some (.error err)) q = ruleBasedSafetyCheck q := by
  constructor
  · simp [isSafeQuery, hne, hrb, llmBasedSafetyCheck, hsafe, hbad]
  · simp [isSafeQuery, hne, hrb, llmBasedSafetyCheck]

/-- Witness for C6 at the query SELECT 1 with an off-format reply and a
backend exception. -/
theorem semantic_layer_fail_closed_witness :
    (isSafeQuery (some (.ok "the query looks fine")) "SELECT 1".data).1 = false ∧
    isSafeQuery (some (.error "connection refused")) "SELECT 1".data =
      ruleBasedSafetyCheck "SELECT 1".data :=
  semantic_layer_fail_closed "SELECT 1".data "the query looks fine" "connection refused"
    (by decide) (by decide) (by decide) (by decide)

/-- C7: when the type-specific extraction raises, conversion does not
propagate the exception: it yields exactly one synthetic document whose
content encodes the error text and whose metadata still carries the
full base metadata — doc_id, object_path, detected type, source
filename and byte size. -/
theorem conversion_failure_yields_placeholder
    (extract : DocumentType → Except String (List PyDoc))
    (filePath docId objectPath : String) (fileSize : Nat) (e : String)
    (h : extract (detectFileType filePath objectPath) = .error e) :
    convertDocument extract filePath docId objectPath fileSize =
      [{ content := "Error processing " ++ (detectFileType filePath objectPath).val ++
           " file: " ++ e,
         meta := baseMeta docId objectPath (detectFileType filePath objectPath) fileSize }] ∧
    (convertDocument extract filePath docId objectPath fileSize).length = 1 ∧
    (∀ d ∈ convertDocument extract filePath docId objectPath fileSize,
      metaGet d.meta "doc_id" = some (.s docId) ∧
      metaGet d.meta "object_path" = some (.s objectPath) ∧
      metaGet d.meta "doc_type" = some (.s (detectFileType filePath objectPath).val) ∧
      metaGet d.meta "source_file" = some (.s (String.mk (lastComponent objectPath.data))) ∧
      metaGet d.meta "file_size" = some (.n fileSize)) := by
  have heq : convertDocument extract filePath docId objectPath fileSize =
      [{ content := "Error processing " ++ (detectFileType filePath objectPath).val ++
           " file: " ++ e,
         meta := baseMeta docId objectPath (detectFileType filePath objectPath) fileSize }] := by
    simp [convertDocument, h]
  refine ⟨heq, by simp [heq], ?_⟩
  intro d hd
  rw [heq] at hd
  simp at hd
  subst hd
  simp [metaGet, baseMeta, List.lookup]

/-- Witness for C7: a text file whose extractor raises. -/
theorem conversion_failure_yields_placeholder_witness :
    convertDocument (fun _ => .error "corrupt stream") "local.txt" "doc-1" "docs/a.txt" 42 =
      [{ content := "Error processing " ++ (detectFileType "local.txt" "docs/a.txt").val ++
           " file: " ++ "corrupt stream",
         meta := baseMeta "doc-1" "docs/a.txt" (detectFileType "local.txt" "docs/a.txt") 42 }] :=
  (conversion_failure_yields_placeholder (fun _ => .error "corrupt stream")
    "local.txt" "doc-1" "docs/a.txt" 42 "corrupt stream" rfl).1

/-- C8: a query request with an empty target set activates no route, so
the pipeline raises (the router's no-route exception) instead of
producing an answer, and the service surfaces the error text — never a
successful empty-answer response. -/
theorem empty_target_set_rejected (validatorLlm : Option LlmOutcome)
    (generateSql : String → Str) (db : Db) (retrieve : Option (String → List Doc))
    (finalLlm : String → String) (q : String) :
    runQueryPipe validatorLlm generateSql db retrieve finalLlm q [] = .error noRouteMessage ∧
    executeQuery validatorLlm generateSql db retrieve finalLlm q [] =
      ⟨"Error executing query: " ++ noRouteMessage, none⟩ := by
  constructor
  · simp [runQueryPipe]
  · simp [executeQuery, runQueryPipe]

/-- C9: when the router activates the structured-query branch and the
generated SQL fails safety validation, the pipeline aborts with the
validation error and the exposed query operation returns the
descriptive rejection — for every final generator, so no ordinary
answer is ever produced. -/
theorem unsafe_generated_sql_aborts_query (validatorLlm : Option LlmOutcome)
    (generateSql : String → Str) (db : Db) (retrieve : Option (String → List Doc))
    (q : String) (targets : List String)
    (hdoc : targets.contains "docstore" = false)
    (hsql : targets.contains "sql" = true)
    (hbad : (isSafeQuery validatorLlm (generateSql q)).1 = false) :
    ∀ finalLlm : String → String,
      runQueryPipe validatorLlm generateSql db retrieve finalLlm q targets =
        .error ("Generated SQL query failed safety validation: " ++
          (isSafeQuery validatorLlm (generateSql q)).2 ++ ". Query: " ++
          String.mk (generateSql q)) ∧
      executeQuery validatorLlm generateSql db retrieve finalLlm q targets =
        ⟨"Error executing query: " ++ ("Generated SQL query failed safety validation: " ++
          (isSafeQuery validatorLlm (generateSql q)).2 ++ ". Query: " ++
          String.mk (generateSql q)), none⟩ := by
  intro finalLlm
  have hgen : sqlGeneratorRun validatorLlm (generateSql q) =
      .error ("Generated SQL query failed safety validation: " ++
        (isSafeQuery validatorLlm (generateSql q)).2 ++ ". Query: " ++
        String.mk (generateSql q)) := by
    simp [sqlGeneratorRun, hbad]
  have hd : "docstore" ∉ targets := by simpa using hdoc
  have hs : "sql" ∈ targets := by simpa using hsql
  constructor
  · simp [runQueryPipe, hd, hs, hgen]
  · simp [executeQuery, runQueryPipe, hd, hs, hgen]

/-- Witness for C9: a sql-only request whose generated candidate is the
deny-listed DROP TABLE users. -/
theorem unsafe_generated_sql_aborts_query_witness :
    runQueryPipe none (fun _ => blockedQuery) (fun _ => .ok ⟨[], []⟩) none (fun _ => "answer")
        "how many users" ["sql"] =
      .error ("Generated SQL query failed safety validation: " ++
        (isSafeQuery none blockedQuery).2 ++ ". Query: " ++ String.mk blockedQuery) :=
  ((unsafe_generated_sql_aborts_query none (fun _ => blockedQuery) (fun _ => .ok ⟨[], []⟩) none
    "how many users" ["sql"] (by decide) (by decide) (by decide)) (fun _ => "answer")).1

/-! Helper lemmas about the registry world, shared by the registry
claims. -/

theorem lookup_proj_mem {α : Type} (f : α → Nat) (k : String) :
    ∀ (l : List (String × α)) (a : α),
      l.lookup k = some a → f a ∈ l.map (fun kv => f kv.2) := by
  intro l
  induction l with
  | nil => intro a h; simp [List.lookup] at h
  | cons kv rest ih =>
    intro a h
    rcases kv with ⟨k1, v1⟩
    by_cases hk : k == k1
    · simp [List.lookup, hk] at h
      simp [← h]
    · simp [List.lookup, hk] at h
      simp [ih a h]

theorem lookup_distinct_of_nodup {α : Type} (f : α → Nat) (k1 k2 : String) :
    ∀ (l : List (String × α)) (a b : α),
      (l.map (fun kv => f kv.2)).Nodup → k1 ≠ k2 →
      l.lookup k1 = some a → l.lookup k2 = some b → f a ≠ f b := by
  intro l
  induction l with
  | nil => intro a b _ _ h1; simp [List.lookup] at h1
  | cons kv rest ih =>
    intro a b hnd hk h1 h2
    rcases kv with ⟨kh, vh⟩
    simp only [List.map_cons, List.nodup_cons] at hnd
    by_cases e1 : k1 == kh
    · by_cases e2 : k2 == kh
      · exact absurd (by rw [eq_of_beq e1, eq_of_beq e2]) hk
      · simp [List.lookup, e1] at h1
        simp [List.lookup, e2] at h2
        rw [← h1]
        exact fun he => hnd.1 (he ▸ lookup_proj_mem f k2 rest b h2)
    · by_cases e2 : k2 == kh
      · simp [List.lookup, e1] at h1
        simp [List.lookup, e2] at h2
        rw [← h2]
        exact fun he => hnd.1 (he ▸ lookup_proj_mem f k1 rest a h1)
      · simp [List.lookup, e1] at h1
        simp [List.lookup, e2] at h2
        exact ih a b hnd.2 hk h1 h2

theorem dsmConstruct_stable (w : World) (i : Nat)
    (h1 : w.dsmInitialized = true) (h2 : w.dsmInstance = some i) :
    dsmConstruct w = (i, w) := by
  simp [dsmConstruct, h1, h2]

theorem getDocumentStore_cached (pfx org : String) (w : World) (s : Store)
    (h : w.documentStores.lookup org = some s) :
    getDocumentStore pfx org w = (s, w) := by
  simp [getDocumentStore, h]

theorem getDocumentStore_fresh (pfx org : String) (w : World)
    (h : w.documentStores.lookup org = none) :
    getDocumentStore pfx org w =
      (⟨w.nextRef, pfx ++ "-" ++ org⟩,
       { w with nextRef := w.nextRef + 1,
                documentStores :=
                  (org, ⟨w.nextRef, pfx ++ "-" ++ org⟩) :: w.documentStores }) := by
  simp [getDocumentStore, createDocumentStore, h]

theorem wf_cons_store (w : World) (org : String) (s : Store)
    (hwf : w.WF) (hs : s.ref = w.nextRef) :
    World.WF { w with nextRef := w.nextRef + 1,
                      documentStores := (org, s) :: w.documentStores } := by
  rcases hwf with ⟨hb, hnd⟩
  constructor
  · intro r hr
    show r < w.nextRef + 1
    simp only [World.refs, List.map_cons, List.cons_append, List.mem_cons] at hr
    rcases hr with h0 | h0
    · omega
    · have := hb r (by simpa [World.refs] using h0)
      omega
  · simp only [World.refs, List.map_cons, List.cons_append, List.nodup_cons]
    refine ⟨fun hmem => ?_, hnd⟩
    have := hb s.ref (by simpa [World.refs] using hmem)
    omega

theorem wf_of_eq_parts (w w' : World) (hwf : w.WF)
    (hn : w.nextRef ≤ w'.nextRef)
    (hd : w'.documentStores = w.documentStores ∨ w'.documentStores = [])
    (hp : w'.processingPipelines = w.processingPipelines) : w'.WF := by
  rcases hwf with ⟨hb, hnd⟩
  simp only [World.refs] at hnd
  constructor
  · intro r hr
    refine Nat.lt_of_lt_of_le (hb r ?_) hn
    simp only [World.refs]
    rcases hd with hd | hd <;>
      simp only [World.refs, hd, hp, List.nil_append] at hr
    · exact hr
    · exact List.mem_append_right _ hr
  · rcases hd with hd | hd <;>
      simp only [World.refs, hd, hp, List.nil_append]
    · exact hnd
    · exact hnd.of_append_right

theorem getDocumentStore_facts (pfx org : String) (w : World) :
    (getDocumentStore pfx org w).2.documentStores.lookup org =
      some (getDocumentStore pfx org w).1 ∧
    (getDocumentStore pfx org w).2.processingPipelines = w.processingPipelines ∧
    (getDocumentStore pfx org w).2.dsmInstance = w.dsmInstance ∧
    (getDocumentStore pfx org w).2.dsmInitialized = w.dsmInitialized ∧
    w.nextRef ≤ (getDocumentStore pfx org w).2.nextRef ∧
    (w.WF → (getDocumentStore pfx org w).2.WF) ∧
    (∀ k, k ≠ org → (getDocumentStore pfx org w).2.documentStores.lookup k =
      w.documentStores.lookup k) := by
  rcases hl : w.documentStores.lookup org with _ | s
  · have he := getDocumentStore_fresh pfx org w hl
    rw [he]
    refine ⟨by simp [List.lookup], rfl, rfl, rfl, Nat.le_succ _, ?_, ?_⟩
    · intro hwf
      exact wf_cons_store w org ⟨w.nextRef, pfx ++ "-" ++ org⟩ hwf rfl
    · intro k hk
      have hkb : (k == org) = false := by simpa using hk
      simp [List.lookup, hkb]
  · rw [getDocumentStore_cached pfx org w s hl]
    exact ⟨hl, rfl, rfl, rfl, Nat.le_refl _, fun h => h, fun _ _ => rfl⟩

theorem dsmConstruct_eq_of_none_false (w : World)
    (hi : w.dsmInstance = none) (hb : w.dsmInitialized = false) :
    dsmConstruct w =
      (w.nextRef, { w with nextRef := w.nextRef + 1, dsmInstance := some w.nextRef,
                           dsmInitialized := true, documentStores := [] }) := by
  simp [dsmConstruct, hi, hb]

theorem dsmConstruct_eq_of_none_true (w : World)
    (hi : w.dsmInstance = none) (hb : w.dsmInitialized = true) :
    dsmConstruct w =
      (w.nextRef, { w with nextRef := w.nextRef + 1, dsmInstance := some w.nextRef }) := by
  simp [dsmConstruct, hi, hb]

theorem dsmConstruct_eq_of_some_false (w : World) (i : Nat)
    (hi : w.dsmInstance = some i) (hb : w.dsmInitialized = false) :
    dsmConstruct w =
      (i, { w with dsmInitialized := true, documentStores := [] }) := by
  simp [dsmConstruct, hi, hb]

theorem dsmConstruct_facts (w : World) :
    (dsmConstruct w).2.dsmInitialized = true ∧
    (dsmConstruct w).2.dsmInstance = some (dsmConstruct w).1 ∧
    (dsmConstruct w).2.processingPipelines = w.processingPipelines ∧
    w.nextRef ≤ (dsmConstruct w).2.nextRef ∧
    (w.WF → (dsmConstruct w).2.WF) ∧
    (w.dsmInitialized = true → (dsmConstruct w).2.documentStores = w.documentStores) ∧
    (w.dsmInitialized = false → (dsmConstruct w).2.documentStores = []) := by
  rcases hi : w.dsmInstance with _ | i <;> cases hb : w.dsmInitialized
  · rw [dsmConstruct_eq_of_none_false w hi hb]
    refine ⟨rfl, rfl, rfl, Nat.le_succ _, ?_, fun h => by simp [hb] at h, fun _ => rfl⟩
    intro hwf
    exact wf_of_eq_parts w _ hwf (Nat.le_succ _) (Or.inr rfl) rfl
  · rw [dsmConstruct_eq_of_none_true w hi hb]
    refine ⟨hb, rfl, rfl, Nat.le_succ _, ?_, fun _ => rfl, fun h => by simp [hb] at h⟩
    intro hwf
    exact wf_of_eq_parts w _ hwf (Nat.le_succ _) (Or.inl rfl) rfl
  · rw [dsmConstruct_eq_of_some_false w i hi hb]
    refine ⟨rfl, hi, rfl, Nat.le_refl _, ?_, fun h => by simp [hb] at h, fun _ => rfl⟩
    intro hwf
    exact wf_of_eq_parts w _ hwf (Nat.le_refl _) (Or.inr rfl) rfl
  · rw [dsmConstruct_stable w i hb hi]
    exact ⟨hb, hi, rfl, Nat.le_refl _, fun h => h, fun _ => rfl, fun h => by simp [hb] at h⟩

theorem factoryGetDocumentStore_eq (pfx org : String) (w : World) :
    factoryGetDocumentStore pfx org w = getDocumentStore pfx org (dsmConstruct w).2 := by
  unfold factoryGetDocumentStore
  rcases dsmConstruct w with ⟨r, w₀⟩
  rfl

theorem queryGetDocumentStore_eq (pfx org : String) (w : World) :
    queryGetDocumentStore pfx org w = getDocumentStore pfx org (dsmConstruct w).2 := by
  unfold queryGetDocumentStore
  rcases dsmConstruct w with ⟨r, w₀⟩
  rfl

theorem getProcessingPipeline_cached (pfx org : String) (w : World) (p : PipelineInst)
    (h : w.processingPipelines.lookup org = some p) :
    getProcessingPipeline pfx org w = (p, w) := by
  simp [getProcessingPipeline, h]

theorem getProcessingPipeline_fresh_cachedStore (pfx org : String) (w : World)
    (s : Store) (i : Nat)
    (hp : w.processingPipelines.lookup org = none)
    (hi : w.dsmInitialized = true) (hin : w.dsmInstance = some i)
    (hs : w.documentStores.lookup org = some s) :
    getProcessingPipeline pfx org w =
      (⟨w.nextRef, s.ref⟩,
       { w with nextRef := w.nextRef + 1,
                processingPipelines :=
                  (org, ⟨w.nextRef, s.ref⟩) :: w.processingPipelines }) := by
  rw [getProcessingPipeline, hp]
  rw [factoryGetDocumentStore_eq, dsmConstruct_stable w i hi hin]
  rw [getDocumentStore_cached pfx org w s hs]

theorem wf_cons_pipeline (w : World) (org : String) (p : PipelineInst)
    (hwf : w.WF) (hp : p.ref = w.nextRef) :
    World.WF { w with nextRef := w.nextRef + 1,
                      processingPipelines := (org, p) :: w.processingPipelines } := by
  rcases hwf with ⟨hb, hnd⟩
  constructor
  · intro r hr
    show r < w.nextRef + 1
    simp only [World.refs, List.map_cons, List.mem_append, List.mem_cons] at hr
    rcases hr with h0 | h0 | h0
    · have := hb r (by simp only [World.refs, List.mem_append]; exact Or.inl h0)
      omega
    · omega
    · have := hb r (by simp only [World.refs, List.mem_append]; exact Or.inr h0)
      omega
  · simp only [World.refs, List.map_cons]
    rw [List.nodup_middle, List.nodup_cons]
    refine ⟨fun hmem => ?_, by simpa [World.refs] using hnd⟩
    have := hb p.ref (by simpa [World.refs] using hmem)
    omega

theorem getProcessingPipeline_post (pfx org : String) (w : World) (s : Store) (i : Nat)
    (hi : w.dsmInitialized = true) (hin : w.dsmInstance = some i)
    (hs : w.documentStores.lookup org = some s) (hwf : w.WF) :
    (getProcessingPipeline pfx org w).2.processingPipelines.lookup org =
      some (getProcessingPipeline pfx org w).1 ∧
    (getProcessingPipeline pfx org w).2.documentStores.lookup org = some s ∧
    (getProcessingPipeline pfx org w).2.dsmInitialized = true ∧
    (getProcessingPipeline pfx org w).2.dsmInstance = some i ∧
    (getProcessingPipeline pfx org w).2.WF := by
  rcases hp : w.processingPipelines.lookup org with _ | p
  · rw [getProcessingPipeline_fresh_cachedStore pfx org w s i hp hi hin hs]
    refine ⟨by simp [List.lookup], hs, hi, hin, ?_⟩
    exact wf_cons_pipeline w org ⟨w.nextRef, s.ref⟩ hwf rfl
  · rw [getProcessingPipeline_cached pfx org w p hp]
    exact ⟨hp, hs, hi, hin, hwf⟩

theorem factoryGetDocumentStore_post (pfx org : String) (w : World) (hwf : w.WF) :
    (factoryGetDocumentStore pfx org w).2.documentStores.lookup org =
      some (factoryGetDocumentStore pfx org w).1 ∧
    (factoryGetDocumentStore pfx org w).2.processingPipelines = w.processingPipelines ∧
    (factoryGetDocumentStore pfx org w).2.dsmInitialized = true ∧
    (∃ i, (factoryGetDocumentStore pfx org w).2.dsmInstance = some i) ∧
    (factoryGetDocumentStore pfx org w).2.WF ∧
    ((w.documentStores.lookup org = none ∨ w.dsmInitialized = false) →
      (factoryGetDocumentStore pfx org w).1.collectionName = pfx ++ "-" ++ org) := by
  obtain ⟨d1, d2, d3, d4, d5, d6, d7⟩ := dsmConstruct_facts w
  obtain ⟨g1, g2, g3, g4, g5, g6, g7⟩ := getDocumentStore_facts pfx org (dsmConstruct w).2
  rw [factoryGetDocumentStore_eq]
  refine ⟨g1, g2.trans d3, ?_, ?_, g6 (d5 hwf), ?_⟩
  · rw [g4, d1]
  · exact ⟨(dsmConstruct w).1, g3.trans d2⟩
  · intro hcond
    have hnone : (dsmConstruct w).2.documentStores.lookup org = none := by
      cases hbi : w.dsmInitialized
      · rw [d7 hbi]
        rfl
      · rcases hcond with hcond | hcond
        · rw [d6 hbi, hcond]
        · rw [hcond] at hbi
          cases hbi
    rw [getDocumentStore_fresh pfx org _ hnone]

theorem getOrCreate_eq (pfx org : String) (w : World) :
    getOrCreate pfx org w =
      (((factoryGetDocumentStore pfx org w).1,
        (getProcessingPipeline pfx org (factoryGetDocumentStore pfx org w).2).1),
       (getProcessingPipeline pfx org (factoryGetDocumentStore pfx org w).2).2) := by
  unfold getOrCreate
  rcases hf : factoryGetDocumentStore pfx org w with ⟨s, w₁⟩
  rcases hp : getProcessingPipeline pfx org w₁ with ⟨p, w₂⟩
  simp [hf, hp]

theorem getOrCreate_post (pfx org : String) (w : World) (hwf : w.WF) :
    (getOrCreate pfx org w).2.documentStores.lookup org =
      some (getOrCreate pfx org w).1.1 ∧
    (getOrCreate pfx org w).2.processingPipelines.lookup org =
      some (getOrCreate pfx org w).1.2 ∧
    (getOrCreate pfx org w).2.dsmInitialized = true ∧
    (∃ i, (getOrCreate pfx org w).2.dsmInstance = some i) ∧
    (getOrCreate pfx org w).2.WF ∧
    ((w.documentStores.lookup org = none ∨ w.dsmInitialized = false) →
      (getOrCreate pfx org w).1.1.collectionName = pfx ++ "-" ++ org) := by
  obtain ⟨f1, f2, f3, ⟨i, f4⟩, f5, f6⟩ := factoryGetDocumentStore_post pfx org w hwf
  obtain ⟨q1, q2, q3, q4, q5⟩ :=
    getProcessingPipeline_post pfx org (factoryGetDocumentStore pfx org w).2
      (factoryGetDocumentStore pfx org w).1 i f3 f4 f1 f5
  rw [getOrCreate_eq]
  exact ⟨q2, q1, q3, ⟨i, q4⟩, q5, f6⟩

theorem getOrCreate_cached_identity (pfx org : String) (w : World)
    (s : Store) (p : PipelineInst) (i : Nat)
    (hi : w.dsmInitialized = true) (hin : w.dsmInstance = some i)
    (hs : w.documentStores.lookup org = some s)
    (hp : w.processingPipelines.lookup org = some p) :
    getOrCreate pfx org w = ((s, p), w) := by
  have hf : factoryGetDocumentStore pfx org w = (s, w) := by
    rw [factoryGetDocumentStore_eq, dsmConstruct_stable w i hi hin]
    exact getDocumentStore_cached pfx org w s hs
  rw [getOrCreate_eq, hf]
  simp [getProcessingPipeline_cached pfx org w p hp]

theorem getOrCreate_distinct_refs (pfx T1 T2 : String) (w : World) (i : Nat)
    (hi : w.dsmInitialized = true) (hin : w.dsmInstance = some i)
    (hwf : w.WF) (hne : T1 ≠ T2)
    (s1 : Store) (p1 : PipelineInst)
    (hs1 : w.documentStores.lookup T1 = some s1)
    (hp1 : w.processingPipelines.lookup T1 = some p1) :
    (getOrCreate pfx T2 w).1.1.ref ≠ s1.ref ∧
    (getOrCreate pfx T2 w).1.2.ref ≠ p1.ref := by
  obtain ⟨hb, hnd⟩ := hwf
  have hnds : (w.documentStores.map (fun kv => kv.2.ref)).Nodup := by
    have h0 : w.refs.Nodup := hnd
    simp only [World.refs] at h0
    exact h0.of_append_left
  have hndp : (w.processingPipelines.map (fun kv => kv.2.ref)).Nodup := by
    have h0 : w.refs.Nodup := hnd
    simp only [World.refs] at h0
    exact h0.of_append_right
  have hlt1 : s1.ref < w.nextRef := by
    refine hb s1.ref ?_
    simp only [World.refs, List.mem_append]
    exact Or.inl (lookup_proj_mem Store.ref T1 w.documentStores s1 hs1)
  have hltp1 : p1.ref < w.nextRef := by
    refine hb p1.ref ?_
    simp only [World.refs, List.mem_append]
    exact Or.inr (lookup_proj_mem PipelineInst.ref T1 w.processingPipelines p1 hp1)
  rcases hl2 : w.documentStores.lookup T2 with _ | s2
  · -- the store for T2 is freshly constructed
    have hf : factoryGetDocumentStore pfx T2 w =
        getDocumentStore pfx T2 w := by
      rw [factoryGetDocumentStore_eq, dsmConstruct_stable w i hi hin]
    have hfl := getDocumentStore_fresh pfx T2 w hl2
    have e1 : (factoryGetDocumentStore pfx T2 w).1.ref = w.nextRef := by
      rw [hf, hfl]
    have e2 : (factoryGetDocumentStore pfx T2 w).2.nextRef = w.nextRef + 1 := by
      rw [hf, hfl]
    have e3 : (factoryGetDocumentStore pfx T2 w).2.documentStores.lookup T2 =
        some (factoryGetDocumentStore pfx T2 w).1 := by
      rw [hf, hfl]
      simp [List.lookup]
    have e4 : (factoryGetDocumentStore pfx T2 w).2.processingPipelines =
        w.processingPipelines := by
      rw [hf, hfl]
    have e5 : (factoryGetDocumentStore pfx T2 w).2.dsmInitialized = true := by
      rw [hf, hfl]
      exact hi
    have e6 : (factoryGetDocumentStore pfx T2 w).2.dsmInstance = some i := by
      rw [hf, hfl]
      exact hin
    rw [getOrCreate_eq]
    constructor
    · show (factoryGetDocumentStore pfx T2 w).1.ref ≠ s1.ref
      omega
    · show (getProcessingPipeline pfx T2
        (factoryGetDocumentStore pfx T2 w).2).1.ref ≠ p1.ref
      rcases hpl2 : w.processingPipelines.lookup T2 with _ | p2
      · have hpl2n : (factoryGetDocumentStore pfx T2 w).2.processingPipelines.lookup T2 =
            none := by
          rw [e4]
          exact hpl2
        rw [getProcessingPipeline_fresh_cachedStore pfx T2 _ _ i hpl2n e5 e6 e3]
        show (factoryGetDocumentStore pfx T2 w).2.nextRef ≠ p1.ref
        omega
      · have hpl2s : (factoryGetDocumentStore pfx T2 w).2.processingPipelines.lookup T2 =
            some p2 := by
          rw [e4]
          exact hpl2
        rw [getProcessingPipeline_cached pfx T2 _ p2 hpl2s]
        exact lookup_distinct_of_nodup PipelineInst.ref T2 T1 w.processingPipelines
          p2 p1 hndp (Ne.symm hne) hpl2 hp1
  · -- the store for T2 is already cached
    have hf : factoryGetDocumentStore pfx T2 w = (s2, w) := by
      rw [factoryGetDocumentStore_eq, dsmConstruct_stable w i hi hin]
      exact getDocumentStore_cached pfx T2 w s2 hl2
    rw [getOrCreate_eq, hf]
    constructor
    · show s2.ref ≠ s1.ref
      exact lookup_distinct_of_nodup Store.ref T2 T1 w.documentStores
        s2 s1 hnds (Ne.symm hne) hl2 hs1
    · show (getProcessingPipeline pfx T2 w).1.ref ≠ p1.ref
      rcases hpl2 : w.processingPipelines.lookup T2 with _ | p2
      · rw [getProcessingPipeline_fresh_cachedStore pfx T2 w s2 i hpl2 hi hin hl2]
        show w.nextRef ≠ p1.ref
        omega
      · rw [getProcessingPipeline_cached pfx T2 w p2 hpl2]
        exact lookup_distinct_of_nodup PipelineInst.ref T2 T1 w.processingPipelines
          p2 p1 hndp (Ne.symm hne) hpl2 hp1

/-- C2: per-tenant registry isolation and caching: from any well-formed
world, the pairs returned for two distinct tenants are componentwise
distinct objects; a repeated call for the same tenant returns the
identical cached pair and leaves the world untouched; and a first call
constructs the Collection named with the configured prefix, a dash and
the tenant id. -/
theorem tenant_registry_isolation_and_caching (pfx T1 T2 : String) (w : World)
    (hwf : w.WF) (hne : T1 ≠ T2) :
    (getOrCreate pfx T2 (getOrCreate pfx T1 w).2).1.1 ≠ (getOrCreate pfx T1 w).1.1 ∧
    (getOrCreate pfx T2 (getOrCreate pfx T1 w).2).1.2 ≠ (getOrCreate pfx T1 w).1.2 ∧
    getOrCreate pfx T1 (getOrCreate pfx T1 w).2 =
      ((getOrCreate pfx T1 w).1, (getOrCreate pfx T1 w).2) ∧
    ((w.documentStores.lookup T1 = none ∨ w.dsmInitialized = false) →
      (getOrCreate pfx T1 w).1.1.collectionName = pfx ++ "-" ++ T1) := by
  obtain ⟨a1, a2, a3, ⟨i, a4⟩, a5, a6⟩ := getOrCreate_post pfx T1 w hwf
  obtain ⟨d1, d2⟩ := getOrCreate_distinct_refs pfx T1 T2 (getOrCreate pfx T1 w).2 i
    a3 a4 a5 hne (getOrCreate pfx T1 w).1.1 (getOrCreate pfx T1 w).1.2 a1 a2
  refine ⟨fun he => d1 (by rw [he]), fun he => d2 (by rw [he]), ?_, a6⟩
  exact getOrCreate_cached_identity pfx T1 (getOrCreate pfx T1 w).2
    (getOrCreate pfx T1 w).1.1 (getOrCreate pfx T1 w).1.2 i a3 a4 a1 a2

/-- Witness for C2 at tenants acme and globex from the initial world. -/
theorem tenant_registry_isolation_and_caching_witness :
    (getOrCreate "kb" "globex" (getOrCreate "kb" "acme" World.init).2).1.1 ≠
      (getOrCreate "kb" "acme" World.init).1.1 ∧
    (getOrCreate "kb" "globex" (getOrCreate "kb" "acme" World.init).2).1.2 ≠
      (getOrCreate "kb" "acme" World.init).1.2 ∧
    getOrCreate "kb" "acme" (getOrCreate "kb" "acme" World.init).2 =
      ((getOrCreate "kb" "acme" World.init).1, (getOrCreate "kb" "acme" World.init).2) ∧
    ((World.init.documentStores.lookup "acme" = none ∨ World.init.dsmInitialized = false) →
      (getOrCreate "kb" "acme" World.init).1.1.collectionName = "kb" ++ "-" ++ "acme") :=
  tenant_registry_isolation_and_caching "kb" "acme" "globex" World.init
    ⟨by simp [World.refs, World.init], by simp [World.refs, World.init]⟩ (by decide)

/-- C3 counterexample: get_document_store is an unsynchronized
check-then-create, so the interleaving check-check-create-create of two
concurrent first-accesses for the same tenant constructs two distinct
Collections (two _create_document_store executions, the two threads
ending with stores of different identities). -/
theorem get_document_store_race_constructs_twice :
    (raceRun "kb" "acme" [0, 1, 0, 1] raceInit).constructedCount = 2 ∧
    (raceRun "kb" "acme" [0, 1, 0, 1] raceInit).threads =
      [TPC.finished ⟨0, "kb-acme"⟩, TPC.finished ⟨1, "kb-acme"⟩] ∧
    (⟨0, "kb-acme"⟩ : Store) ≠ ⟨1, "kb-acme"⟩ := by
  refine ⟨by decide, by decide, by decide⟩

/-- C3 amended: tenant-resource creation is a check-then-create with no
lock, atomic only per step: when the two first-accesses are serialized,
exactly one Collection is constructed and both callers receive it, but
there is an interleaving of the two unsynchronized accesses that
constructs two. -/
theorem get_document_store_check_then_create (pfx org : String) :
    (raceRun pfx org [0, 0, 1, 1] raceInit).constructedCount = 1 ∧
    (raceRun pfx org [0, 0, 1, 1] raceInit).threads =
      [TPC.finished ⟨0, pfx ++ "-" ++ org⟩, TPC.finished ⟨0, pfx ++ "-" ++ org⟩] ∧
    (raceRun pfx org [0, 1, 0, 1] raceInit).constructedCount = 2 := by
  refine ⟨?_, ?_, ?_⟩ <;>
    simp [raceRun, raceStep, raceInit, List.lookup]

theorem lookup_filter_self_none (org : String) :
    ∀ l : List (String × Store),
      (l.filter (fun kv => !(kv.1 = org))).lookup org = none := by
  intro l
  induction l with
  | nil => rfl
  | cons kv rest ih =>
    rcases kv with ⟨k, v⟩
    by_cases hk : k = org
    · simpa [List.filter_cons, hk] using ih
    · have hne : (org == k) = false := by
        simpa using fun he => hk he.symm
      simpa [List.filter_cons, hk, List.lookup, hne] using ih

/-- C10: the DocumentStoreManager is a process-wide singleton sharing
one tenant-to-store cache: a second construction returns the identical
instance and leaves the state untouched; after the indexing factory
obtains a store for an organization, the query pipeline path obtains
the identical store object from the shared cache; and removing the
organization through the shared manager is observed by every path
(the shared cache no longer holds the organization). -/
theorem document_store_manager_is_singleton (pfx org : String) (w : World) :
    dsmConstruct (dsmConstruct w).2 = ((dsmConstruct w).1, (dsmConstruct w).2) ∧
    queryGetDocumentStore pfx org (factoryGetDocumentStore pfx org w).2 =
      ((factoryGetDocumentStore pfx org w).1, (factoryGetDocumentStore pfx org w).2) ∧
    (removeDocumentStore org (factoryGetDocumentStore pfx org w).2).1 = true ∧
    ((removeDocumentStore org (factoryGetDocumentStore pfx org w).2).2).documentStores.lookup
      org = none := by
  obtain ⟨d1, d2, d3, d4, d5, d6, d7⟩ := dsmConstruct_facts w
  obtain ⟨g1, g2, g3, g4, g5, g6, g7⟩ := getDocumentStore_facts pfx org (dsmConstruct w).2
  have hfe := factoryGetDocumentStore_eq pfx org w
  have hinit : (factoryGetDocumentStore pfx org w).2.dsmInitialized = true := by
    rw [hfe, g4]
    exact d1
  have hinst : (factoryGetDocumentStore pfx org w).2.dsmInstance =
      some (dsmConstruct w).1 := by
    rw [hfe, g3]
    exact d2
  have hlook : (factoryGetDocumentStore pfx org w).2.documentStores.lookup org =
      some (factoryGetDocumentStore pfx org w).1 := by
    rw [hfe]
    exact g1
  refine ⟨dsmConstruct_stable (dsmConstruct w).2 (dsmConstruct w).1 d1 d2, ?_, ?_, ?_⟩
  · rw [queryGetDocumentStore_eq,
      dsmConstruct_stable (factoryGetDocumentStore pfx org w).2 (dsmConstruct w).1 hinit hinst]
    exact getDocumentStore_cached pfx org (factoryGetDocumentStore pfx org w).2
      (factoryGetDocumentStore pfx org w).1 hlook
  · simp [removeDocumentStore, hlook]
  · simp [removeDocumentStore, hlook, lookup_filter_self_none]

end Retina
